import Mathlib

/-!
Verification development for the AlphaRNG host-side driver (tectrolabs/alpharng).

Each definition below is a shallow embedding of one function of the C++ sources,
translated statement by statement.  Machine integers are modelled as `Nat` (or
`Int` where the source uses signed values), with an explicit `% 2 ^ w` wherever
the C computation can wrap.  Where the C source performs a signed shift that
overflows (undefined before C++20), we model the two's-complement wrap that
C++20 specifies and that gcc/clang produce.

Sources embedded here:
* `AlphaRngApi::create_token`            (api-src/AlphaRngApi.cpp, lines 1047-1057)
* `AesCryptor::initialize_iv`            (api-src/AesCryptor.cpp, lines 168-193)
* `ShaEntropyExtractor::extract_entropy` (api-src/ShaEntropyExtractor.cpp, lines 78-182)
* `HealthTests`                          (windows-x64/api/HealthTests.cpp)
* `RandomRangeSequence`                  (api-src/RandomRangeSequence.cpp)
* `AlphaRngApi::get_bytes`, `get_unpacked_bytes(_with_retry)`  (api-src/AlphaRngApi.cpp)
* `AlphaRngApi::upload_session_key`      (api-src/AlphaRngApi.cpp, lines 1092-1162)
* `AlphaRngApi::connect`                 (api-src/AlphaRngApi.cpp, lines 876-893)
* the session-TTL machinery (declared in api-inc/AlphaRngApi.h; its definition is
  not part of the sources here, so it is modelled from the specification text).
-/

/-! ## Token minting: `AlphaRngApi::create_token`

```cpp
time_t seconds = time(NULL);
uint64_t token = seconds;
uint16_t rnd;                       // fresh random bytes
token  = (token << 32) | (m_token_serial_number++ << 16) | rnd;
```

`m_token_serial_number` is a `uint16_t`.  In `m_token_serial_number++ << 16` the
serial is promoted to a 32-bit signed `int` before the shift; when the serial has
its top bit set, the shifted 32-bit value is negative and the conversion of
`(serial << 16) | rnd` to `uint64_t` (for the `|` with `token << 32`)
sign-extends, setting bits 32..63.  The shift itself is modelled as the
two's-complement wrap produced by gcc/clang (defined behaviour since C++20).
-/

/-- Shallow embedding of `AlphaRngApi::create_token`.
`seconds` is the wall-clock value returned by `time(NULL)` (non-negative),
`serial` the current value of the `uint16_t` member `m_token_serial_number`,
`rnd` the fresh random `uint16_t`.  Returns the minted 64-bit token together
with the post-increment value of the serial. -/
def create_token (seconds serial rnd : Nat) : Nat × Nat :=
  -- bit pattern of the 32-bit signed intermediate `(int)serial << 16`
  let shifted32 : Nat := (serial <<< 16) % 2 ^ 32
  -- `(serial << 16) | rnd`, still a 32-bit signed int
  let low32 : Nat := shifted32 ||| rnd
  -- conversion of that int to `uint64_t`: sign-extension when bit 31 is set
  let low64 : Nat := if low32 < 2 ^ 31 then low32 else 2 ^ 64 - 2 ^ 32 + low32
  -- `(token << 32) | low64` in `uint64_t` arithmetic
  let token : Nat := (((seconds % 2 ^ 64) <<< 32) % 2 ^ 64) ||| low64
  (token, (serial + 1) % 2 ^ 16)

/-! ## IV derivation: `AesCryptor::initialize_iv`

```cpp
time_t seconds = time(nullptr);
uint64_t token_sn = seconds << 32 | m_iv_serial_number++;
RAND_bytes((unsigned char*)&m_iv + sizeof(token_sn), sizeof(m_iv) - sizeof(token_sn));
memcpy(m_iv, &token_sn, sizeof(token_sn));
```

`m_iv` is `unsigned char[12]`, `m_iv_serial_number` a `uint32_t`.  The
`memcpy` lays the `uint64_t` out little-endian (x86), so the first four IV
bytes hold the serial and the next four the low 32 bits of the seconds. -/

/-- Little-endian byte decomposition: the `w` low-order bytes of `v`,
least significant first (the layout `memcpy` produces on x86). -/
def le_bytes : Nat → Nat → List Nat
  | 0, _ => []
  | w + 1, v => (v % 256) :: le_bytes w (v / 256)

/-- Shallow embedding of `AesCryptor::initialize_iv`.  `seconds` is the
wall-clock value, `serial` the current `uint32_t` member `m_iv_serial_number`,
`tail` the four fresh random bytes drawn for `iv[8..12]`.  Returns the 12 IV
bytes and the post-increment serial. -/
def initialize_iv (seconds serial : Nat) (tail : List Nat) : List Nat × Nat :=
  -- `uint64_t token_sn = seconds << 32 | m_iv_serial_number++;`
  let token_sn : Nat := (((seconds % 2 ^ 64) <<< 32) % 2 ^ 64) ||| (serial % 2 ^ 32)
  (le_bytes 8 token_sn ++ tail.take 4, (serial + 1) % 2 ^ 32)

/-! ## SHA entropy extractor: `ShaEntropyExtractor::extract_entropy`

The embedding records the sizes of the `get_noise` requests the function issues
to the device.  `len` is the requested output length (an `int`, `≥ 1` past the
guard at line 90), `hash_size` the digest size of the selected SHA (32 or 64),
`r` the in/out ratio `m_in_out_ratio` (`≥ 1`, checked by `initialize()`).  All
the derived quantities at lines 95-119 are C `int`s: every multiplication
wraps at 32 bits, and `/` and `%` truncate toward zero (`Int.tdiv` /
`Int.tmod`).  `m_noise_buff_bytes` is the `int`
`in_out_ratio * hash_size * 1000` from the constructor's initializer list. -/

/-- Wrap of an `Int`-valued expression computed in `int32_t` arithmetic
(two's complement). -/
def wrap32i (z : Int) : Int :=
  let m := z % 2 ^ 32
  if m < 2 ^ 31 then m else m - 2 ^ 32

/-- Effect of one hash iteration of `ShaEntropyExtractor::extract_hash_values`
(lines 159-178) on `entropy_bytes_needed`. -/
def extract_hash_step (hash_size needed : Int) : Int :=
  if hash_size ≤ needed then needed - hash_size
  else if 0 < needed then 0
  else needed

/-- `entropy_bytes_needed` after `q` hash iterations. -/
def extract_hash_needed (hash_size : Int) : Nat → Int → Int
  | 0, needed => needed
  | q + 1, needed => extract_hash_needed hash_size q (extract_hash_step hash_size needed)

/-- Shallow embedding of `ShaEntropyExtractor::extract_entropy` for a run in
which every device request succeeds: the list of byte counts passed to
`m_rng_api->get_noise`, in order.  Mirrors the `int` quantities computed at
ShaEntropyExtractor.cpp lines 95-119.  In particular
`long total_in_sha_byte_qty = in_sha_byte_qty * sha_qty` (line 106) is an
`int * int` product that wraps at 32 bits before the widening to `long`, and
the `for` loop (line 123) and the final request (line 134) run zero times when
`total_noise_req_qty` respectively `last_noise_req_bytes` is non-positive. -/
def extract_entropy_requests (len hash_size r : Int) : List Int :=
  let sha_qty : Int := len.tdiv hash_size + (if len.tmod hash_size ≠ 0 then 1 else 0)
  let in_sha_byte_qty : Int := wrap32i (hash_size * r)
  let total_in_sha_byte_qty : Int := wrap32i (in_sha_byte_qty * sha_qty)
  let noise_buff_bytes : Int := wrap32i (wrap32i (r * hash_size) * 1000)
  let total_noise_req_qty : Int := wrap32i (total_in_sha_byte_qty.tdiv noise_buff_bytes)
  let last_noise_req_bytes : Int := wrap32i (total_in_sha_byte_qty.tmod noise_buff_bytes)
  let total_hash_qty_per_buffer : Int := wrap32i (noise_buff_bytes.tdiv in_sha_byte_qty)
  -- `entropy_bytes_needed` after the `total_noise_req_qty` full-buffer rounds
  let needed_after : Int :=
    extract_hash_needed hash_size
      (total_noise_req_qty.toNat * total_hash_qty_per_buffer.toNat) len
  List.replicate total_noise_req_qty.toNat noise_buff_bytes ++
    (if 0 < last_noise_req_bytes ∧ 0 < needed_after then [last_noise_req_bytes] else [])

/-! ## `AlphaRngApi::connect` (api-src/AlphaRngApi.cpp lines 876-893)

```cpp
bool AlphaRngApi::connect(int device_number) {
    if (!is_initialized() || is_connected()) {
        return false;
    }
    m_op_retry_count = 0;
    for (int tries = 0; tries < c_max_command_retry_count; ++tries) { ... }
    return false;
}
```

The early-return guard is modelled exactly; everything after it (lines 881-892:
the retry loop around `disconnect`/`connect_internal`) is abstracted as an
arbitrary continuation `body`, so the theorems about the guard hold whatever
that code does. -/

/-- The engine state components relevant to `connect`'s guard. -/
structure ApiState where
  is_initialized : Bool
  device_connected : Bool
  op_retry_count : Nat
  session_count : Nat
deriving Repr, DecidableEq

/-- `AlphaRngApi::is_connected`: `is_initialized()` and then
`m_device->is_connected()`. -/
def ApiState.is_conn (st : ApiState) : Bool :=
  st.is_initialized && st.device_connected

/-- Shallow embedding of `AlphaRngApi::connect`.  `body` stands for lines
881-892 (the `m_op_retry_count = 0` reset and the retry loop); it returns the
success flag, the new state, and the list of transport operations performed. -/
def api_connect (body : ApiState → Bool × ApiState × List Nat)
    (st : ApiState) : Bool × ApiState × List Nat :=
  if !st.is_initialized || st.is_conn then (false, st, [])
  else body st

/-! ## Session TTL

Modelled from the spec: `set_session_ttl`, the `expire_at = now + ttl` record
kept at the end of every successful handshake, and the expiry check that
`execute_command` performs, are declared in api-inc/AlphaRngApi.h
(`set_session_ttl`, `m_expire_time_secs`, `m_time_to_live_mins`,
`m_session_count`, version 1.8 of the header) but the member-function
definitions are not among the sources here (AlphaRngApi.cpp is version 1.6 and
predates them).  The model below follows the specification text: if a non-zero
TTL is set, the engine records `expire_at = now + ttl` at the end of every
successful handshake; before each `executeCommand`, if `now ≥ expire_at`, the
engine tears down the transport and re-runs `connect()`; the session count
increments on every successful connect. -/

/-- TTL-related engine state (`m_time_to_live_mins`, `m_expire_time_secs`,
`m_session_count`, connection flag).  Times are in seconds. -/
structure TtlState where
  connected : Bool
  time_to_live_mins : Nat
  expire_time_secs : Nat
  session_count : Nat
deriving Repr, DecidableEq

/-- Modelled from the spec: a successful `connect()` handshake at wall-clock
time `now` increments the session count and, when a non-zero TTL is set,
records `expire_at = now + ttl`. -/
def ttl_connect (now : Nat) (st : TtlState) : TtlState :=
  { st with
    connected := true
    session_count := st.session_count + 1
    expire_time_secs :=
      if st.time_to_live_mins ≠ 0 then now + st.time_to_live_mins * 60
      else st.expire_time_secs }

/-- Modelled from the spec: `set_session_ttl(minutes)`. -/
def ttl_set (minutes : Nat) (st : TtlState) : TtlState :=
  { st with time_to_live_mins := minutes }

/-- Modelled from the spec: the check `execute_command` performs before issuing
a command at time `now` — if a non-zero TTL is set and `now ≥ expire_at`, tear
down the transport and re-run `connect()`. -/
def ttl_before_execute (now : Nat) (st : TtlState) : TtlState :=
  if st.time_to_live_mins ≠ 0 ∧ st.expire_time_secs ≤ now then
    ttl_connect now { st with connected := false }
  else st

/-- Modelled from the spec: `execute_command` at time `now` first applies the
TTL check, then executes the command over the resulting session.  Returns the
state over which the command is actually executed. -/
def execute_command_ttl (now : Nat) (st : TtlState) : TtlState :=
  ttl_before_execute now st

/-! ## Health tests (windows-x64/api/HealthTests.cpp, Structures.h)

`RctData` and `AptData` mirror the structs of Structures.h; counters are
modelled as `Nat` (they are `uint16_t`/`uint32_t` in the source and stay far
below their width for every input considered here). -/

/-- Repetition Count Test state (`struct RctData`). -/
structure RctData where
  max_repetitions : Nat
  cur_repetitions : Nat
  last_sample : Nat
  status_byte : Nat
  signature : Nat
  is_initialized : Bool
  failure_count : Nat
deriving Repr, DecidableEq

/-- Adaptive Proportion Test state (`struct AptData`). -/
structure AptData where
  window_size : Nat
  cutoff_value : Nat
  cur_repetitions : Nat
  cur_samples : Nat
  status_byte : Nat
  signature : Nat
  is_initialized : Bool
  first_sample : Nat
  cycle_failures : Nat
deriving Repr, DecidableEq

/-- `HealthTests` member state. -/
structure HealthTests where
  apt : AptData
  rct : RctData
  num_failures_threshold : Nat
  max_rct_failures_per_block : Nat
  max_apt_failures_per_block : Nat
  tests_enabled : Bool
deriving Repr, DecidableEq

/-- `HealthTests::rct_restart`. -/
def HealthTests.rct_restart (r : RctData) : RctData :=
  { r with is_initialized := false, cur_repetitions := 1, failure_count := 0 }

/-- `HealthTests::apt_restart`. -/
def HealthTests.apt_restart (a : AptData) : AptData :=
  { a with is_initialized := false, cycle_failures := 0 }

/-- `HealthTests::rct_initialize`: `memset` to zero, then set the named fields,
then `rct_restart()`. -/
def HealthTests.rct_init : RctData :=
  HealthTests.rct_restart
    { max_repetitions := 5, cur_repetitions := 0, last_sample := 0,
      status_byte := 0, signature := 1, is_initialized := false, failure_count := 0 }

/-- `HealthTests::apt_initialize`: `memset` to zero, then set the named fields,
then `apt_restart()`. -/
def HealthTests.apt_init : AptData :=
  HealthTests.apt_restart
    { window_size := 64, cutoff_value := 5, cur_repetitions := 0, cur_samples := 0,
      status_byte := 0, signature := 2, is_initialized := false, first_sample := 0,
      cycle_failures := 0 }

/-- The `HealthTests` constructor with the default failure threshold
(`s_min_num_failures_threshold = 5`). -/
def HealthTests.default_state : HealthTests :=
  { apt := HealthTests.apt_init, rct := HealthTests.rct_init,
    num_failures_threshold := 5, max_rct_failures_per_block := 0,
    max_apt_failures_per_block := 0, tests_enabled := true }

/-- `HealthTests::restart`. -/
def HealthTests.restart (t : HealthTests) : HealthTests :=
  { t with rct := HealthTests.rct_restart t.rct, apt := HealthTests.apt_restart t.apt }

/-- The repetition-count block of the per-byte loop of `HealthTests::test`
(lines 106-135 of HealthTests.cpp). -/
def HealthTests.rct_phase (t : HealthTests) (value : Nat) : HealthTests :=
  if !t.rct.is_initialized then
    { t with rct := { t.rct with is_initialized := true, last_sample := value } }
  else if t.rct.last_sample = value then
    let cur := t.rct.cur_repetitions + 1
    if t.rct.max_repetitions ≤ cur then
      let fc := t.rct.failure_count + 1
      let status :=
        if t.num_failures_threshold < fc ∧ t.rct.status_byte = 0 then t.rct.signature
        else t.rct.status_byte
      let maxr := if t.max_rct_failures_per_block < fc then fc else t.max_rct_failures_per_block
      { t with
        rct := { t.rct with cur_repetitions := 1, failure_count := fc, status_byte := status },
        max_rct_failures_per_block := maxr }
    else
      { t with rct := { t.rct with cur_repetitions := cur } }
  else
    { t with rct := { t.rct with last_sample := value, cur_repetitions := 1 } }

/-- The adaptive-proportion block of the per-byte loop of `HealthTests::test`
(lines 137-167 of HealthTests.cpp). -/
def HealthTests.apt_phase (t : HealthTests) (value : Nat) : HealthTests :=
  if !t.apt.is_initialized then
    { t with apt :=
      { t.apt with
        is_initialized := true, first_sample := value,
        cur_repetitions := 0, cur_samples := 0 } }
  else
    let cs := t.apt.cur_samples + 1
    if t.apt.window_size ≤ cs then
      if t.apt.cutoff_value < t.apt.cur_repetitions then
        let cf := t.apt.cycle_failures + 1
        let status :=
          if t.num_failures_threshold < cf ∧ t.apt.status_byte = 0 then t.apt.signature
          else t.apt.status_byte
        let maxa := if t.max_apt_failures_per_block < cf then cf else t.max_apt_failures_per_block
        { t with
          apt := { t.apt with
                   is_initialized := false, cur_samples := cs,
                   cycle_failures := cf, status_byte := status },
          max_apt_failures_per_block := maxa }
      else
        { t with apt := { t.apt with is_initialized := false, cur_samples := cs } }
    else
      if t.apt.first_sample = value then
        { t with apt := { t.apt with
                           cur_samples := cs,
                           cur_repetitions := t.apt.cur_repetitions + 1 } }
      else
        { t with apt := { t.apt with cur_samples := cs } }

/-- The body of the per-byte loop of `HealthTests::test` (lines 103-167 of
HealthTests.cpp): the repetition-count block, then the adaptive-proportion
block, on the same input byte. -/
def HealthTests.step (t : HealthTests) (value : Nat) : HealthTests :=
  HealthTests.apt_phase (HealthTests.rct_phase t value) value

/-- `HealthTests::test`: run a byte array through both tests (no-op when the
tests are disabled). -/
def HealthTests.test (t : HealthTests) (l : List Nat) : HealthTests :=
  if !t.tests_enabled then t else l.foldl HealthTests.step t

/-- `HealthTests::get_health_status`. -/
def HealthTests.get_health_status (t : HealthTests) : Nat :=
  if t.rct.status_byte ≠ 0 then t.rct.status_byte
  else if t.apt.status_byte ≠ 0 then t.apt.status_byte
  else 0

/-- `HealthTests::is_error`. -/
def HealthTests.is_error (t : HealthTests) : Bool :=
  t.rct.status_byte ≠ 0 || t.apt.status_byte ≠ 0

/-! ## Bulk reads (api-src/AlphaRngApi.cpp)

`get_bytes` (the MAC/cipher path, lines 714-780) and `get_unpacked_bytes` /
`get_unpacked_bytes_with_retry` (the no-cipher fast path, lines 641-712) are
embedded against a response oracle: `resp i b` is byte `b` of the payload
received for chunk `i` (the transport and `execute_command` retry layers are
taken as succeeding, which isolates the health-test control flow the claims
are about).  Each embedding also returns how many device commands (for
`get_bytes`) or whole-read attempts (for the retry wrapper) were issued. -/

/-- The per-chunk loop of `AlphaRngApi::get_bytes` (lines 726-751).  Arguments:
chunk index, number of full chunks still to read, health-test state.  Returns
(success, health state, number of `execute_command` calls made). -/
def AlphaRngApi.get_bytes_loop (resp : Nat → Nat → Nat) (block : Nat) (test_data : Bool) :
    Nat → Nat → HealthTests → Bool × HealthTests × Nat
  | _, 0, ht => (true, ht, 0)
  | i, n + 1, ht =>
    let ht1 := if test_data then ht.restart else ht
    if resp i block ≠ 0 then (false, ht1, 1)
    else
      let ht2 := if test_data then ht1.test ((List.range block).map (resp i)) else ht1
      if test_data && ht2.is_error then (false, ht2, 1)
      else
        let r := AlphaRngApi.get_bytes_loop resp block test_data (i + 1) n ht2
        (r.1, r.2.1, r.2.2 + 1)

/-- Shallow embedding of `AlphaRngApi::get_bytes` (lines 714-780): full chunks
then the trailing partial chunk.  Returns (success, health state, number of
`execute_command` calls made). -/
def AlphaRngApi.get_bytes (resp : Nat → Nat → Nat) (out_length block : Nat)
    (test_data : Bool) (ht : HealthTests) : Bool × HealthTests × Nat :=
  if out_length < 1 then (false, ht, 0)
  else
    let chunks := out_length / block
    let rem := out_length % block
    let r := AlphaRngApi.get_bytes_loop resp block test_data 0 chunks ht
    if !r.1 then r
    else if 0 < rem then
      let ht1 := if test_data then r.2.1.restart else r.2.1
      if resp chunks block ≠ 0 then (false, ht1, r.2.2 + 1)
      else
        let ht2 := if test_data then ht1.test ((List.range rem).map (resp chunks)) else ht1
        if test_data && ht2.is_error then (false, ht2, r.2.2 + 1)
        else (true, ht2, r.2.2 + 1)
    else r

/-- The per-chunk loop of `AlphaRngApi::get_unpacked_bytes` (lines 667-688),
structured exactly like `get_bytes_loop` but reading raw payloads through
`get_payload_bytes_with_retry` (modelled as the oracle). -/
def AlphaRngApi.get_unpacked_bytes_loop (payload : Nat → Nat → Nat) (block : Nat)
    (test_data : Bool) : Nat → Nat → HealthTests → Bool × HealthTests
  | _, 0, ht => (true, ht)
  | i, n + 1, ht =>
    let ht1 := if test_data then ht.restart else ht
    if payload i block ≠ 0 then (false, ht1)
    else
      let ht2 := if test_data then ht1.test ((List.range block).map (payload i)) else ht1
      if test_data && ht2.is_error then (false, ht2)
      else AlphaRngApi.get_unpacked_bytes_loop payload block test_data (i + 1) n ht2

/-- Shallow embedding of `AlphaRngApi::get_unpacked_bytes` (lines 660-712). -/
def AlphaRngApi.get_unpacked_bytes (payload : Nat → Nat → Nat) (out_length block : Nat)
    (test_data : Bool) (ht : HealthTests) : Bool × HealthTests :=
  let chunks := out_length / block
  let rem := out_length % block
  let r := AlphaRngApi.get_unpacked_bytes_loop payload block test_data 0 chunks ht
  if !r.1 then r
  else if 0 < rem then
    let ht1 := if test_data then r.2.restart else r.2
    if payload chunks block ≠ 0 then (false, ht1)
    else
      let ht2 := if test_data then ht1.test ((List.range rem).map (payload chunks)) else ht1
      if test_data && ht2.is_error then (false, ht2)
      else (true, ht2)
  else r

/-- The retry loop of `AlphaRngApi::get_unpacked_bytes_with_retry`
(lines 647-655): up to `fuel` attempts, attempt `k` reading through
`payloads k`.  Returns (success, health state, attempts made). -/
def AlphaRngApi.get_unpacked_retry_loop (payloads : Nat → Nat → Nat → Nat)
    (out_length block : Nat) (test_data : Bool) :
    Nat → Nat → HealthTests → Bool × HealthTests × Nat
  | _, 0, ht => (false, ht, 0)
  | k, n + 1, ht =>
    let r := AlphaRngApi.get_unpacked_bytes (payloads k) out_length block test_data ht
    if r.1 then (true, r.2, 1)
    else
      let r2 := AlphaRngApi.get_unpacked_retry_loop payloads out_length block test_data (k + 1) n r.2
      (r2.1, r2.2.1, r2.2.2 + 1)

/-- Shallow embedding of `AlphaRngApi::get_unpacked_bytes_with_retry`
(lines 641-658): the `out_length < 1` guard, then up to
`c_max_command_retry_count = 3` attempts.  Returns (success, health state,
attempts made). -/
def AlphaRngApi.get_unpacked_bytes_with_retry (payloads : Nat → Nat → Nat → Nat)
    (out_length block : Nat) (test_data : Bool) (ht : HealthTests) :
    Bool × HealthTests × Nat :=
  if out_length < 1 then (false, ht, 0)
  else AlphaRngApi.get_unpacked_retry_loop payloads out_length block test_data 0 3 ht

/-! ## Session record: `AlphaRngApi::upload_session_key` (lines 1092-1162)

The `Session` struct (Structures.h) is built as: `memset(&sess, 0x00, ...)`,
then the type/size/macType fields, a fresh token, and — when a cipher is
configured — the AAD and AES key; then `m_hmac->get_mac_key(sess.mac_key)`
copies the HMAC object's key **unconditionally**, and the MAC is computed only
when `macType != None`.  `initialize_hmac` (lines 145-168) creates the HMAC
object by a switch in which `MacType::None` falls into the `default:` branch,
i.e. an `HmacSha256` whose constructor generates a random 32-byte key. -/

/-- `enum class KeySize : uint8_t {None = 0, k128 = 16, k256 = 32}`. -/
inductive KeySize where
  | None
  | k128
  | k256
deriving Repr, DecidableEq

/-- Numeric value of `KeySize` = AES key length in bytes. -/
def KeySize.bytes : KeySize → Nat
  | KeySize.None => 0
  | KeySize.k128 => 16
  | KeySize.k256 => 32

/-- `enum class MacType : uint8_t {None = 0, hmacMD5 = 16, hmacSha160 = 20, hmacSha256 = 32}`. -/
inductive MacType where
  | None
  | hmacMD5
  | hmacSha160
  | hmacSha256
deriving Repr, DecidableEq

/-- Numeric value of `MacType` = configured MAC length in bytes. -/
def MacType.bytes : MacType → Nat
  | MacType.None => 0
  | MacType.hmacMD5 => 16
  | MacType.hmacSha160 => 20
  | MacType.hmacSha256 => 32

/-- Key size of the HMAC object `initialize_hmac` creates for a configured
`MacType` (each implementation's `get_mac_key` copies exactly this many bytes):
`hmacSha256` and — through the `default:` branch — `None` give an `HmacSha256`
with a 32-byte key; `hmacSha160` an `HmacSha1` with a 20-byte key; `hmacMD5`
an `HmacMD5` with a 16-byte key. -/
def MacType.implKeyBytes : MacType → Nat
  | MacType.None => 32
  | MacType.hmacMD5 => 16
  | MacType.hmacSha160 => 20
  | MacType.hmacSha256 => 32

/-- The `Session` struct of Structures.h with its byte arrays as lists. -/
structure SessionRec where
  e_type : Nat
  e_size : KeySize
  key : List Nat
  token : Nat
  cipher_aad : List Nat
  e_mac_type : MacType
  mac_key : List Nat
  mac : List Nat
deriving Repr, DecidableEq

/-- The `Session` record as populated by `AlphaRngApi::upload_session_key`
(lines 1095-1135) just before upload.  `aes_key` is the cipher key held by the
`AesCryptor` (length `cfg_key.bytes`), `aad` its 16-byte AAD, `hmac_key` the
key held by the HMAC object (length `cfg_mac.implKeyBytes`), `token` the fresh
session token and `mac_bytes` the digest `m_hmac->hmac` produces over the
record. -/
def AlphaRngApi.upload_session_key_record (cfg_mac : MacType) (cfg_key : KeySize)
    (aes_key aad hmac_key : List Nat) (token : Nat) (mac_bytes : List Nat) : SessionRec :=
  { e_type := 1
    e_size := cfg_key
    key :=
      if cfg_key ≠ KeySize.None then
        aes_key.take cfg_key.bytes ++ List.replicate (32 - cfg_key.bytes) 0
      else List.replicate 32 0
    token := token
    cipher_aad := if cfg_key ≠ KeySize.None then aad.take 16 else List.replicate 16 0
    e_mac_type := cfg_mac
    mac_key := hmac_key.take cfg_mac.implKeyBytes ++
      List.replicate (32 - cfg_mac.implKeyBytes) 0
    mac := if cfg_mac ≠ MacType.None then mac_bytes.take 32 else List.replicate 32 0 }

/-! ## Randomized range sequence (api-src/RandomRangeSequence.cpp)

The number buffers are `int32_t` arrays while the loop counters and sizes are
`uint32_t`; storing `i + 1` into a buffer slot therefore wraps to the signed
32-bit value, which is modelled explicitly by `wrap32`.  The entropy words
(`mn_random_buffer`, filled by the subclass's `get_entropy`) are `int32_t`
values, read back modulo `2 ^ 32` by the `uint32_t` conversion in
`iterate`. -/

/-- Conversion of a `uint32_t`-computed value to `int32_t`
(two's complement). -/
def wrap32 (n : Nat) : Int :=
  let m : Nat := n % 2 ^ 32
  if m < 2 ^ 31 then (m : Int) else (m : Int) - 2 ^ 32

/-- The mutable generation state: `m_current_number_buffer` (length
`m_current_number_buffer_size`) and the emitted relative values
(`dest[0..m_dest_idx]`). -/
structure RangeGenState where
  active : List Int
  dest : List Int
deriving Repr, DecidableEq

/-- `RandomRangeSequence::iterate` (lines 116-124): one pass over the entropy
words; `idx = mn_random_buffer[i] % m_current_number_buffer_size` with the
`int32_t` word converted to `uint32_t`.  Stops as soon as `size` values have
been emitted. -/
def RandomRangeSequence.iterate (size : Nat) : List Nat → RangeGenState → RangeGenState
  | [], st => st
  | w :: ws, st =>
    if st.dest.length < size then
      let idx := (w % 2 ^ 32) % st.active.length
      let v := st.active.getD idx 0
      if v ≠ -1 then
        RandomRangeSequence.iterate size ws
          { active := st.active.set idx (-1), dest := st.dest ++ [v] }
      else
        RandomRangeSequence.iterate size ws st
    else st

/-- `RandomRangeSequence::defragment` (lines 96-107): drop the slots marked
`-1` (the double-buffer copy-and-swap keeps exactly the unmarked values, in
order). -/
def RandomRangeSequence.defragment (st : RangeGenState) : RangeGenState :=
  { st with active := st.active.filter (fun v => v != -1) }

/-- The `while` loop of `RandomRangeSequence::generate_sequence`
(lines 165-171), with an explicit fuel;  each round requests `size` fresh
entropy words `ent round 0, …, ent round (size-1)`.
Returns the emitted relative values (or `none` on fuel exhaustion, which
`generate_sequence` never triggers) and the number of `get_entropy`
requests. -/
def RandomRangeSequence.gen_loop (ent : Nat → Nat → Nat) (size : Nat) :
    Nat → Nat → RangeGenState → Option (List Int) × Nat
  | _, 0, _ => (none, 0)
  | round, fuel + 1, st =>
    if 0 < st.active.length ∧ st.dest.length < size then
      let st1 := RandomRangeSequence.iterate size ((List.range size).map (ent round)) st
      let r := RandomRangeSequence.gen_loop ent size (round + 1) fuel
        (RandomRangeSequence.defragment st1)
      (r.1, r.2 + 1)
    else (some st.dest, 0)

/-- `c_min_range_value`. -/
def RandomRangeSequence.c_min_range_value : Int := -2147483647

/-- `c_max_range_value`. -/
def RandomRangeSequence.c_max_range_value : Int := 2147483647

/-- `c_max_sequences`. -/
def RandomRangeSequence.c_max_sequences : Nat := 4294967295

/-- `c_actual_range = (uint32_t)llabs(max - min) + 1` (only reached when
`min ≤ max`). -/
def RandomRangeSequence.actual_range (min_limit max_limit : Int) : Nat :=
  (max_limit - min_limit).toNat + 1

/-- The constructor's validation (lines 32-74): `m_is_error` stays `true`
when any limit check fails or any of the three allocations fails
(`alloc_ok = false`). -/
def RandomRangeSequence.ctor_error (min_limit max_limit : Int) (alloc_ok : Bool) : Bool :=
  if min_limit < RandomRangeSequence.c_min_range_value then true
  else if RandomRangeSequence.c_max_range_value < max_limit then true
  else if max_limit < min_limit then true
  else if RandomRangeSequence.c_max_sequences <
    RandomRangeSequence.actual_range min_limit max_limit then true
  else !alloc_ok

/-- `RandomRangeSequence::init` (lines 130-138): slot `i` receives
`(int32_t)(i + 1)` — for ranges beyond `2^31` the stored value wraps, and at
`i + 1 = 2^32 - 1` it collides with the `-1` marker. -/
def RandomRangeSequence.init_active (range : Nat) : List Int :=
  (List.range range).map (fun i => wrap32 (i + 1))

/-- Shallow embedding of `RandomRangeSequence::generate_sequence`
(lines 152-179), for an entropy source that always succeeds (`ent round i` is
the `uint32_t` pattern of word `i` of round `round`).  Returns the generated
absolute values (`none` where the C function returns `false`) and the number
of `get_entropy` requests issued. -/
def RandomRangeSequence.generate_sequence (min_limit max_limit : Int) (alloc_ok : Bool)
    (ent : Nat → Nat → Nat) (size : Nat) : Option (List Int) × Nat :=
  if RandomRangeSequence.ctor_error min_limit max_limit alloc_ok then (none, 0)
  else
    let range := RandomRangeSequence.actual_range min_limit max_limit
    if range < size ∨ size = 0 then (none, 0)
    else
      let st0 : RangeGenState := { active := RandomRangeSequence.init_active range, dest := [] }
      let r := RandomRangeSequence.gen_loop ent size 0 (size + 1) st0
      match r.1 with
      | none => (none, r.2)
      | some dest =>
        (some (dest.map (fun v => wrap32i (v - 1 + min_limit))), r.2)

/-! ## Helper lemmas on bitwise arithmetic and byte layouts -/

/-- Division by a power of two distributes over bitwise or. -/
theorem lor_div_two_pow (a b n : Nat) : (a ||| b) / 2 ^ n = a / 2 ^ n ||| b / 2 ^ n := by
  induction n with
  | zero => simp
  | succ n ih =>
    rw [pow_succ, ← Nat.div_div_eq_div_mul, ih, Nat.or_div_two,
      ← Nat.div_div_eq_div_mul, ← Nat.div_div_eq_div_mul]

/-- Remainder modulo a power of two distributes over bitwise or. -/
theorem lor_mod_two_pow (a b n : Nat) : (a ||| b) % 2 ^ n = a % 2 ^ n ||| b % 2 ^ n := by
  apply Nat.eq_of_testBit_eq
  intro i
  simp [Nat.testBit_mod_two_pow, Bool.and_or_distrib_left]

/-- Bitwise or with an all-ones block absorbs any smaller value. -/
theorem lor_two_pow_sub_one (a n : Nat) (h : a < 2 ^ n) : a ||| (2 ^ n - 1) = 2 ^ n - 1 := by
  apply Nat.eq_of_testBit_eq
  intro i
  simp only [Nat.testBit_or, Nat.testBit_two_pow_sub_one]
  by_cases hi : i < n
  · simp [hi]
  · have ha : a.testBit i = false :=
      Nat.testBit_lt_two_pow (lt_of_lt_of_le h (Nat.pow_le_pow_right (by norm_num) (le_of_not_lt hi)))
    simp [hi, ha]

/-- Multiplication by a power of two distributes over bitwise or. -/
theorem two_pow_mul_lor (k a b : Nat) : (2 ^ k * a) ||| (2 ^ k * b) = 2 ^ k * (a ||| b) := by
  apply Nat.eq_of_testBit_eq
  intro j
  simp [Nat.testBit_mul_pow_two, Bool.and_or_distrib_left]

/-- The token actually minted by `create_token`, in plain arithmetic: the low
48 bits always carry `serial ‖ rnd`, while the upper 32 bits carry the
wall-clock seconds only when the serial's top bit is clear — otherwise the
sign-extension of the signed intermediate fills them with ones. -/
theorem create_token_eq (seconds serial rnd : Nat) (hs : serial < 2 ^ 16) (hr : rnd < 2 ^ 16) :
    (create_token seconds serial rnd).1 =
      (if serial < 2 ^ 15 then (seconds % 2 ^ 32) * 2 ^ 32 else (2 ^ 32 - 1) * 2 ^ 32)
        + serial * 2 ^ 16 + rnd := by
  have hshift : (serial <<< 16) % 2 ^ 32 = serial * 2 ^ 16 := by
    rw [Nat.shiftLeft_eq]
    exact Nat.mod_eq_of_lt (by calc serial * 2 ^ 16 < 2 ^ 16 * 2 ^ 16 :=
      (Nat.mul_lt_mul_right (by norm_num)).mpr hs
      _ = 2 ^ 32 := by norm_num)
  have hlow32 : (serial * 2 ^ 16) ||| rnd = serial * 2 ^ 16 + rnd := by
    rw [mul_comm serial (2 ^ 16), ← Nat.mul_add_lt_is_or hr serial, mul_comm]
  have hlow32lt : serial * 2 ^ 16 + rnd < 2 ^ 32 := by
    calc serial * 2 ^ 16 + rnd ≤ (2 ^ 16 - 1) * 2 ^ 16 + rnd :=
          Nat.add_le_add_right (Nat.mul_le_mul_right _ (by omega)) rnd
      _ < 2 ^ 32 := by omega
  have hhi : ((seconds % 2 ^ 64) <<< 32) % 2 ^ 64 = (seconds % 2 ^ 32) * 2 ^ 32 := by
    rw [Nat.shiftLeft_eq, show (2 : Nat) ^ 64 = 2 ^ 32 * 2 ^ 32 by norm_num,
      Nat.mul_mod_mul_right, Nat.mod_mod_of_dvd seconds (by norm_num : (2:Nat) ^ 32 ∣ 2 ^ 32 * 2 ^ 32)]
  show ((((seconds % 2 ^ 64) <<< 32) % 2 ^ 64) |||
      (if ((serial <<< 16) % 2 ^ 32) ||| rnd < 2 ^ 31 then ((serial <<< 16) % 2 ^ 32) ||| rnd
       else 2 ^ 64 - 2 ^ 32 + (((serial <<< 16) % 2 ^ 32) ||| rnd))) = _
  rw [hshift, hlow32, hhi]
  by_cases hserial : serial < 2 ^ 15
  · have hlt31 : serial * 2 ^ 16 + rnd < 2 ^ 31 := by
      calc serial * 2 ^ 16 + rnd ≤ (2 ^ 15 - 1) * 2 ^ 16 + rnd :=
            Nat.add_le_add_right (Nat.mul_le_mul_right _ (by omega)) rnd
        _ < 2 ^ 31 := by omega
    rw [if_pos hlt31, if_pos hserial, mul_comm (seconds % 2 ^ 32) (2 ^ 32),
      ← Nat.mul_add_lt_is_or hlow32lt (seconds % 2 ^ 32), mul_comm]
    omega
  · have hge31 : ¬ (serial * 2 ^ 16 + rnd < 2 ^ 31) := by
      have : 2 ^ 15 * 2 ^ 16 ≤ serial * 2 ^ 16 :=
        Nat.mul_le_mul_right _ (le_of_not_lt hserial)
      omega
    rw [if_neg hge31, if_neg hserial,
      show (2:Nat) ^ 64 - 2 ^ 32 + (serial * 2 ^ 16 + rnd)
        = 2 ^ 32 * (2 ^ 32 - 1) + (serial * 2 ^ 16 + rnd) by norm_num,
      Nat.mul_add_lt_is_or hlow32lt (2 ^ 32 - 1),
      mul_comm (seconds % 2 ^ 32) (2 ^ 32), ← Nat.or_assoc, two_pow_mul_lor,
      lor_two_pow_sub_one (seconds % 2 ^ 32) 32 (Nat.mod_lt _ (by norm_num)),
      ← Nat.mul_add_lt_is_or hlow32lt (2 ^ 32 - 1)]
    omega

/-- C2 counterexample: at wall-clock second 0, token serial 0xFFFF (high bit
set) and random value 0, the minted token's upper 32 bits are all ones instead
of the low 32 bits of the wall-clock seconds — the property claimed for every
serial, including ones with the high bit set, fails. -/
theorem create_token_claim_cex :
    ¬ ((create_token 0 65535 0).1 / 2 ^ 32 = 0 % 2 ^ 32 ∧
       (create_token 0 65535 0).1 / 2 ^ 16 % 2 ^ 16 = 65535 ∧
       (create_token 0 65535 0).1 % 2 ^ 16 = 0) := by
  decide

/-- C2 (amended): a token minted by `create_token` carries the random value in
bits 0..15 and the token serial in bits 16..31, and the serial is incremented
(mod 2^16); the upper 32 bits equal the low 32 bits of the wall-clock seconds
when the serial's high bit is clear, but equal `0xFFFFFFFF` (the
sign-extension of the signed `serial << 16` intermediate) when the high bit is
set. -/
theorem create_token_spec (seconds serial rnd : Nat)
    (hs : serial < 2 ^ 16) (hr : rnd < 2 ^ 16) :
    (create_token seconds serial rnd).1 % 2 ^ 16 = rnd ∧
    (create_token seconds serial rnd).1 / 2 ^ 16 % 2 ^ 16 = serial ∧
    (serial < 2 ^ 15 → (create_token seconds serial rnd).1 / 2 ^ 32 = seconds % 2 ^ 32) ∧
    (2 ^ 15 ≤ serial → (create_token seconds serial rnd).1 / 2 ^ 32 = 2 ^ 32 - 1) ∧
    (create_token seconds serial rnd).2 = (serial + 1) % 2 ^ 16 := by
  have h := create_token_eq seconds serial rnd hs hr
  have hsec : seconds % 2 ^ 32 < 2 ^ 32 := Nat.mod_lt _ (by norm_num)
  by_cases hhb : serial < 2 ^ 15
  · rw [if_pos hhb] at h
    refine ⟨?_, ?_, fun _ => ?_, fun hc => absurd hhb (not_lt.mpr hc), rfl⟩ <;> omega
  · rw [if_neg hhb] at h
    refine ⟨?_, ?_, fun hc => absurd hc hhb, fun _ => ?_, rfl⟩ <;> omega

/-- Witness for `create_token_spec` at seconds 5, serial 7, random 9. -/
theorem create_token_spec_witness :
    7 < 2 ^ 16 ∧ 9 < 2 ^ 16 ∧
    ((create_token 5 7 9).1 % 2 ^ 16 = 9 ∧
     (create_token 5 7 9).1 / 2 ^ 16 % 2 ^ 16 = 7 ∧
     (7 < 2 ^ 15 → (create_token 5 7 9).1 / 2 ^ 32 = 5 % 2 ^ 32) ∧
     (2 ^ 15 ≤ 7 → (create_token 5 7 9).1 / 2 ^ 32 = 2 ^ 32 - 1) ∧
     (create_token 5 7 9).2 = (7 + 1) % 2 ^ 16) :=
  ⟨by decide, by decide, create_token_spec 5 7 9 (by decide) (by decide)⟩

/-- `le_bytes` produces exactly `w` bytes. -/
theorem le_bytes_length (w : Nat) : ∀ v, (le_bytes w v).length = w := by
  induction w with
  | zero => intro v; rfl
  | succ w ih => intro v; simp [le_bytes, ih]

/-- Splitting a little-endian byte layout: low bytes first, then the bytes of
the shifted-down value. -/
theorem le_bytes_append (m n : Nat) : ∀ v, le_bytes (m + n) v = le_bytes m v ++ le_bytes n (v / 256 ^ m) := by
  induction m with
  | zero => intro v; simp [le_bytes]
  | succ m ih =>
    intro v
    rw [Nat.succ_add, le_bytes, le_bytes, ih (v / 256)]
    simp [Nat.div_div_eq_div_mul, pow_succ, mul_comm]

/-- `le_bytes w` only depends on the value modulo `256 ^ w`. -/
theorem le_bytes_mod (m : Nat) : ∀ v, le_bytes m (v % 256 ^ m) = le_bytes m v := by
  induction m with
  | zero => intro v; rfl
  | succ m ih =>
    intro v
    rw [le_bytes, le_bytes,
      Nat.mod_mod_of_dvd v (by exact dvd_pow_self 256 (Nat.succ_ne_zero m)),
      show (256:Nat) ^ (m + 1) = 256 * 256 ^ m by ring,
      Nat.mod_mul_right_div_self, ih (v / 256)]

/-- The IV written by `initialize_iv`, as explicit byte segments: the serial
first (little-endian), then the low 32 bits of the seconds, then the random
tail. -/
theorem initialize_iv_eq (seconds serial : Nat) (tail : List Nat)
    (hserial : serial < 2 ^ 32) (htail : tail.length = 4) :
    (initialize_iv seconds serial tail).1 =
      le_bytes 4 serial ++ le_bytes 4 (seconds % 2 ^ 32) ++ tail := by
  have hhi : ((seconds % 2 ^ 64) <<< 32) % 2 ^ 64 = (seconds % 2 ^ 32) * 2 ^ 32 := by
    rw [Nat.shiftLeft_eq, show (2 : Nat) ^ 64 = 2 ^ 32 * 2 ^ 32 by norm_num,
      Nat.mul_mod_mul_right, Nat.mod_mod_of_dvd seconds (by norm_num : (2:Nat) ^ 32 ∣ 2 ^ 32 * 2 ^ 32)]
  have hmod : serial % 2 ^ 32 = serial := Nat.mod_eq_of_lt hserial
  have htok : (((seconds % 2 ^ 64) <<< 32) % 2 ^ 64) ||| (serial % 2 ^ 32)
      = 2 ^ 32 * (seconds % 2 ^ 32) + serial := by
    rw [hhi, hmod, mul_comm (seconds % 2 ^ 32) (2 ^ 32), ← Nat.mul_add_lt_is_or hserial]
  show le_bytes 8 ((((seconds % 2 ^ 64) <<< 32) % 2 ^ 64) ||| (serial % 2 ^ 32)) ++ tail.take 4 = _
  rw [htok, show (8:Nat) = 4 + 4 from rfl, le_bytes_append,
    show (2 ^ 32 * (seconds % 2 ^ 32) + serial) / 256 ^ 4 = seconds % 2 ^ 32 by
      rw [show (256:Nat) ^ 4 = 2 ^ 32 by norm_num]; omega,
    ← le_bytes_mod 4 (2 ^ 32 * (seconds % 2 ^ 32) + serial),
    show (2 ^ 32 * (seconds % 2 ^ 32) + serial) % 256 ^ 4 = serial by
      rw [show (256:Nat) ^ 4 = 2 ^ 32 by norm_num]; omega,
    List.take_of_length_le (le_of_eq htail)]

/-- C8 counterexample: at seconds 1, serial 2 and zero random tail, the first
four IV bytes are the little-endian serial, not the little-endian seconds as
claimed (the `memcpy` of `(secs << 32) | serial` lays the serial out first). -/
theorem initialize_iv_claim_cex :
    ¬ ((initialize_iv 1 2 [0, 0, 0, 0]).1.take 4 = le_bytes 4 (1 % 2 ^ 32) ∧
       ((initialize_iv 1 2 [0, 0, 0, 0]).1.drop 4).take 4 = le_bytes 4 (2 % 2 ^ 32)) := by
  decide

/-- C8 (amended): every `initialize_iv` call produces a 12-byte IV whose first
four bytes are `u32_le(iv serial)`, whose next four bytes are
`u32_le(wall-clock seconds)`, and whose last four bytes are the fresh random
tail; the 32-bit serial is incremented once per call. -/
theorem initialize_iv_spec (seconds serial : Nat) (tail : List Nat)
    (hserial : serial < 2 ^ 32) (htail : tail.length = 4) :
    (initialize_iv seconds serial tail).1.take 4 = le_bytes 4 serial ∧
    ((initialize_iv seconds serial tail).1.drop 4).take 4 = le_bytes 4 (seconds % 2 ^ 32) ∧
    (initialize_iv seconds serial tail).1.drop 8 = tail ∧
    (initialize_iv seconds serial tail).1.length = 12 ∧
    (initialize_iv seconds serial tail).2 = (serial + 1) % 2 ^ 32 := by
  have hiv := initialize_iv_eq seconds serial tail hserial htail
  refine ⟨?_, ?_, ?_, ?_, rfl⟩
  · rw [hiv, List.append_assoc]
    exact List.take_left' (le_bytes_length 4 serial)
  · rw [hiv, List.append_assoc, List.drop_left' (le_bytes_length 4 serial)]
    exact List.take_left' (le_bytes_length 4 (seconds % 2 ^ 32))
  · rw [hiv]
    exact List.drop_left' (by simp [le_bytes_length])
  · simp [hiv, le_bytes_length, htail]

/-- Witness for `initialize_iv_spec` at seconds 1, serial 2 and tail
`[9, 9, 9, 9]`. -/
theorem initialize_iv_spec_witness :
    2 < 2 ^ 32 ∧ ([9, 9, 9, 9] : List Nat).length = 4 ∧
    ((initialize_iv 1 2 [9, 9, 9, 9]).1.take 4 = le_bytes 4 2 ∧
     ((initialize_iv 1 2 [9, 9, 9, 9]).1.drop 4).take 4 = le_bytes 4 (1 % 2 ^ 32) ∧
     (initialize_iv 1 2 [9, 9, 9, 9]).1.drop 8 = [9, 9, 9, 9] ∧
     (initialize_iv 1 2 [9, 9, 9, 9]).1.length = 12 ∧
     (initialize_iv 1 2 [9, 9, 9, 9]).2 = (2 + 1) % 2 ^ 32) :=
  ⟨by decide, by decide, initialize_iv_spec 1 2 [9, 9, 9, 9] (by decide) (by decide)⟩

/-- C10: calling `connect` on an instance that is already connected returns
`false` immediately — no transport operation is performed, the state is
untouched and `is_connected()` stays true — whatever the code after the guard
(`body`) would do. -/
theorem connect_when_connected (body : ApiState → Bool × ApiState × List Nat)
    (st : ApiState) (h : st.is_conn = true) :
    api_connect body st = (false, st, []) ∧ (api_connect body st).2.1.is_conn = true := by
  have : (!st.is_initialized || st.is_conn) = true := by rw [h]; simp
  constructor
  · simp [api_connect, this]
  · simp [api_connect, this, h]

/-- Witness for `connect_when_connected` on a connected state and a body that
would perform transport operations and flip the state. -/
theorem connect_when_connected_witness :
    (ApiState.mk true true 0 1).is_conn = true ∧
    (api_connect (fun s => (true, { s with session_count := 99 }, [1, 2, 3]))
        (ApiState.mk true true 0 1) = (false, ApiState.mk true true 0 1, []) ∧
     (api_connect (fun s => (true, { s with session_count := 99 }, [1, 2, 3]))
        (ApiState.mk true true 0 1)).2.1.is_conn = true) :=
  ⟨by decide, connect_when_connected _ (ApiState.mk true true 0 1) (by decide)⟩

/-- C3 (modelled from the spec): with a non-zero session TTL, (a) every
successful handshake at time `now` records `expire_at = now + ttl`; (b) an
`execute_command` at a time `later` past that `expire_at` re-runs `connect()`,
incrementing the session count by one; and (c) whatever the time of the
`execute_command`, the session over which the command is finally executed has
not expired: `later < expire_at` of the state the command runs over. -/
theorem session_ttl_spec (st : TtlState) (now later : Nat)
    (h : st.time_to_live_mins ≠ 0) :
    (ttl_connect now st).expire_time_secs = now + st.time_to_live_mins * 60 ∧
    ((ttl_connect now st).expire_time_secs ≤ later →
      (execute_command_ttl later (ttl_connect now st)).session_count
        = (ttl_connect now st).session_count + 1) ∧
    later < (execute_command_ttl later (ttl_connect now st)).expire_time_secs := by
  refine ⟨by simp [ttl_connect, h], ?_, ?_⟩
  · intro hexp
    simp only [execute_command_ttl, ttl_before_execute, ttl_connect]
    rw [if_pos ⟨h, hexp⟩]
  · by_cases hexp : (ttl_connect now st).expire_time_secs ≤ later
    · have h1 : 1 ≤ st.time_to_live_mins := Nat.one_le_iff_ne_zero.mpr h
      simp only [execute_command_ttl, ttl_before_execute]
      rw [if_pos ⟨h, hexp⟩]
      simp only [ttl_connect, ne_eq, h, not_false_eq_true, if_true]
      omega
    · simp only [execute_command_ttl, ttl_before_execute]
      rw [if_neg (by intro hc; exact hexp hc.2)]
      omega

/-- Witness for `session_ttl_spec`: the spec's scenario — TTL one minute,
connect at second 0, command issued at second 61 — reconnects (session count
2 after starting from 1) and the command runs over a session expiring at 121. -/
theorem session_ttl_spec_witness :
    (TtlState.mk true 1 0 1).time_to_live_mins ≠ 0 ∧
    ((ttl_connect 0 (TtlState.mk true 1 0 1)).expire_time_secs = 0 + 1 * 60 ∧
     ((ttl_connect 0 (TtlState.mk true 1 0 1)).expire_time_secs ≤ 61 →
       (execute_command_ttl 61 (ttl_connect 0 (TtlState.mk true 1 0 1))).session_count
         = (ttl_connect 0 (TtlState.mk true 1 0 1)).session_count + 1) ∧
     61 < (execute_command_ttl 61 (ttl_connect 0 (TtlState.mk true 1 0 1))).expire_time_secs) :=
  ⟨by decide, session_ttl_spec (TtlState.mk true 1 0 1) 0 61 (by decide)⟩

/-- C6: the claimed consumption identity fails within the claim's own scope.
At `len = 2^30` with SHA-256 (`hash_size = 32`) and the constructor-default
in/out ratio `r = 2`, the `int` product `in_sha_byte_qty * sha_qty` at
ShaEntropyExtractor.cpp:106 is `64 * 33554432 = 2^31`, which overflows `int`
and wraps to `-2^31`; `total_noise_req_qty` and `last_noise_req_bytes` both
come out negative, so this (successful) run issues no `get_noise` request at
all: it consumes `0` noise bytes instead of the claimed
`ceil(len/32) * 32 * 2 = 2^31`, and `extract_entropy` returns `true` without
having produced any entropy. -/
theorem extract_entropy_ratio_overflow :
    extract_entropy_requests 1073741824 32 2 = [] ∧
    (extract_entropy_requests 1073741824 32 2).sum = 0 ∧
    ¬ ((extract_entropy_requests 1073741824 32 2).sum
        = ((1073741824 + 32 - 1) / 32) * 32 * 2) := by
  decide

/-- C7 counterexample: with `MacType::None` configured, `upload_session_key`
still copies the 32-byte key of the default `HmacSha256` object into the
`macKey` field (`get_mac_key` is called unconditionally), so the field is not
zero: here the HMAC object's random key is all `1` bytes and the claim that
the entire `macKey` field is zero fails. -/
theorem upload_session_key_claim_cex :
    ¬ ((AlphaRngApi.upload_session_key_record MacType.None KeySize.k256
          (List.replicate 32 2) (List.replicate 16 3) (List.replicate 32 1) 0
          (List.replicate 32 4)).mac_key.drop (MacType.None).bytes
        = List.replicate (32 - (MacType.None).bytes) 0) := by
  decide

/-- C7 (amended): in every `Session` record built by `upload_session_key`, the
bytes of the 32-byte `key` field beyond the configured key size are zero, and
the bytes of the 32-byte `macKey` field beyond the key size of the HMAC object
the API instantiated are zero.  For every MAC type other than `None` that HMAC
key size equals the configured MAC length, so the claimed padding holds; for
`MacType::None`, however, `initialize_hmac`'s `default:` branch instantiates
an `HmacSha256` and `upload_session_key` copies its full random 32-byte key
into `macKey`, so the field equals that key rather than being zero. -/
theorem upload_session_key_padding (cfg_mac : MacType) (cfg_key : KeySize)
    (aes_key aad hmac_key : List Nat) (token : Nat) (mac_bytes : List Nat)
    (haes : aes_key.length = cfg_key.bytes)
    (hhmac : hmac_key.length = cfg_mac.implKeyBytes) :
    (AlphaRngApi.upload_session_key_record cfg_mac cfg_key aes_key aad hmac_key token
        mac_bytes).key.drop cfg_key.bytes = List.replicate (32 - cfg_key.bytes) 0 ∧
    (AlphaRngApi.upload_session_key_record cfg_mac cfg_key aes_key aad hmac_key token
        mac_bytes).mac_key.drop cfg_mac.implKeyBytes
      = List.replicate (32 - cfg_mac.implKeyBytes) 0 ∧
    (cfg_mac ≠ MacType.None →
      (AlphaRngApi.upload_session_key_record cfg_mac cfg_key aes_key aad hmac_key token
          mac_bytes).mac_key.drop cfg_mac.bytes = List.replicate (32 - cfg_mac.bytes) 0) ∧
    (cfg_mac = MacType.None →
      (AlphaRngApi.upload_session_key_record cfg_mac cfg_key aes_key aad hmac_key token
          mac_bytes).mac_key = hmac_key) := by
  have htake_aes : aes_key.take cfg_key.bytes = aes_key := by
    rw [List.take_of_length_le (le_of_eq haes)]
  have htake_hmac : hmac_key.take cfg_mac.implKeyBytes = hmac_key := by
    rw [List.take_of_length_le (le_of_eq hhmac)]
  refine ⟨?_, ?_, ?_, ?_⟩
  · cases cfg_key
    · simp [AlphaRngApi.upload_session_key_record, KeySize.bytes]
    · simp only [AlphaRngApi.upload_session_key_record, ne_eq, reduceCtorEq,
        not_false_eq_true, if_true, htake_aes]
      rw [List.drop_left' haes]
    · simp only [AlphaRngApi.upload_session_key_record, ne_eq, reduceCtorEq,
        not_false_eq_true, if_true, htake_aes]
      rw [List.drop_left' haes]
  · simp only [AlphaRngApi.upload_session_key_record, htake_hmac]
    rw [List.drop_left' hhmac]
  · intro hne
    have himpl : cfg_mac.implKeyBytes = cfg_mac.bytes := by
      cases cfg_mac
      · exact absurd rfl hne
      · rfl
      · rfl
      · rfl
    simp only [AlphaRngApi.upload_session_key_record, htake_hmac, ← himpl]
    rw [List.drop_left' hhmac]
  · intro hnone
    subst hnone
    simp only [AlphaRngApi.upload_session_key_record, htake_hmac,
      MacType.implKeyBytes, Nat.sub_self, List.replicate, List.append_nil]
    exact htake_hmac

/-- Witness for `upload_session_key_padding` with HMAC-SHA-1 and a 128-bit
key: 20-byte MAC key and 16-byte AES key, trailing bytes zero. -/
theorem upload_session_key_padding_witness :
    (List.replicate 16 2 : List Nat).length = KeySize.k128.bytes ∧
    (List.replicate 20 1 : List Nat).length = MacType.hmacSha160.implKeyBytes ∧
    ((AlphaRngApi.upload_session_key_record MacType.hmacSha160 KeySize.k128
        (List.replicate 16 2) (List.replicate 16 3) (List.replicate 20 1) 0
        (List.replicate 32 4)).key.drop KeySize.k128.bytes
      = List.replicate (32 - KeySize.k128.bytes) 0 ∧
     (AlphaRngApi.upload_session_key_record MacType.hmacSha160 KeySize.k128
        (List.replicate 16 2) (List.replicate 16 3) (List.replicate 20 1) 0
        (List.replicate 32 4)).mac_key.drop MacType.hmacSha160.implKeyBytes
      = List.replicate (32 - MacType.hmacSha160.implKeyBytes) 0 ∧
     (MacType.hmacSha160 ≠ MacType.None →
      (AlphaRngApi.upload_session_key_record MacType.hmacSha160 KeySize.k128
        (List.replicate 16 2) (List.replicate 16 3) (List.replicate 20 1) 0
        (List.replicate 32 4)).mac_key.drop MacType.hmacSha160.bytes
      = List.replicate (32 - MacType.hmacSha160.bytes) 0) ∧
     (MacType.hmacSha160 = MacType.None →
      (AlphaRngApi.upload_session_key_record MacType.hmacSha160 KeySize.k128
        (List.replicate 16 2) (List.replicate 16 3) (List.replicate 20 1) 0
        (List.replicate 32 4)).mac_key = List.replicate 20 1)) :=
  ⟨by decide, by decide,
   upload_session_key_padding MacType.hmacSha160 KeySize.k128
     (List.replicate 16 2) (List.replicate 16 3) (List.replicate 20 1) 0
     (List.replicate 32 4) (by decide) (by decide)⟩


/-- The adaptive-proportion block leaves the repetition-count state alone. -/
theorem apt_phase_rct (t : HealthTests) (v : Nat) :
    (HealthTests.apt_phase t v).rct = t.rct := by
  unfold HealthTests.apt_phase
  dsimp only
  split_ifs <;> rfl

/-- The repetition-count block leaves the adaptive-proportion state alone. -/
theorem rct_phase_apt (t : HealthTests) (v : Nat) :
    (HealthTests.rct_phase t v).apt = t.apt := by
  unfold HealthTests.rct_phase
  dsimp only
  split_ifs <;> rfl

/-- The repetition-count block does not change the failure threshold. -/
theorem rct_phase_threshold (t : HealthTests) (v : Nat) :
    (HealthTests.rct_phase t v).num_failures_threshold = t.num_failures_threshold := by
  unfold HealthTests.rct_phase
  dsimp only
  split_ifs <;> rfl

/-- The adaptive-proportion block does not change the failure threshold. -/
theorem apt_phase_threshold (t : HealthTests) (v : Nat) :
    (HealthTests.apt_phase t v).num_failures_threshold = t.num_failures_threshold := by
  unfold HealthTests.apt_phase
  dsimp only
  split_ifs <;> rfl

/-- A full step does not change the failure threshold. -/
theorem step_threshold (t : HealthTests) (v : Nat) :
    (HealthTests.step t v).num_failures_threshold = t.num_failures_threshold := by
  rw [HealthTests.step, apt_phase_threshold, rct_phase_threshold]

/-- Once the RCT status byte has latched (become non-zero), no further byte
changes it. -/
theorem rct_status_latched (t : HealthTests) (v : Nat)
    (h : t.rct.status_byte ≠ 0) :
    (HealthTests.step t v).rct.status_byte = t.rct.status_byte := by
  rw [HealthTests.step, apt_phase_rct]
  unfold HealthTests.rct_phase
  dsimp only
  by_cases h1 : (!t.rct.is_initialized) = true
  · simp [h1]
  · by_cases h2 : t.rct.last_sample = v
    · by_cases h3 : t.rct.max_repetitions ≤ t.rct.cur_repetitions + 1
      · simp [h1, h2, h3, h]
      · simp [h1, h2, h3]
    · simp [h1, h2]

/-- Latched RCT status is preserved by any further input stream. -/
theorem rct_status_latched_foldl (l : List Nat) :
    ∀ (t : HealthTests), t.rct.status_byte ≠ 0 →
      (List.foldl HealthTests.step t l).rct.status_byte = t.rct.status_byte := by
  induction l with
  | nil => intro t _; rfl
  | cons x xs ih =>
    intro t h
    rw [List.foldl_cons, ih _ (by rw [rct_status_latched t x h]; exact h),
      rct_status_latched t x h]

/-- Running bytes through the tests mid-window: as long as each byte differs
from its predecessor (no repetition) and from the window's first sample, and
the window does not fill up, the only state changes are the RCT last-sample
tracker and the APT sample counter — no failure is counted and no status
latches. -/
theorem health_steps_mid :
    ∀ (l : List Nat) (prev f c thr mr ma : Nat),
      List.Chain' (fun a b => a ≠ b) (prev :: l) →
      (∀ x ∈ l, x ≠ f) →
      c + l.length < 64 →
      List.foldl HealthTests.step
        { apt := { window_size := 64, cutoff_value := 5, cur_repetitions := 0,
                   cur_samples := c, status_byte := 0, signature := 2,
                   is_initialized := true, first_sample := f, cycle_failures := 0 },
          rct := { max_repetitions := 5, cur_repetitions := 1, last_sample := prev,
                   status_byte := 0, signature := 1, is_initialized := true,
                   failure_count := 0 },
          num_failures_threshold := thr, max_rct_failures_per_block := mr,
          max_apt_failures_per_block := ma, tests_enabled := true } l
      = { apt := { window_size := 64, cutoff_value := 5, cur_repetitions := 0,
                   cur_samples := c + l.length, status_byte := 0, signature := 2,
                   is_initialized := true, first_sample := f, cycle_failures := 0 },
          rct := { max_repetitions := 5, cur_repetitions := 1,
                   last_sample := (prev :: l).getLast (List.cons_ne_nil prev l),
                   status_byte := 0, signature := 1, is_initialized := true,
                   failure_count := 0 },
          num_failures_threshold := thr, max_rct_failures_per_block := mr,
          max_apt_failures_per_block := ma, tests_enabled := true } := by
  intro l
  induction l with
  | nil =>
    intro prev f c thr mr ma _ _ _
    simp
  | cons x xs ih =>
    intro prev f c thr mr ma hchain hfst hlen
    obtain ⟨hpx, hchain'⟩ := List.chain'_cons.mp hchain
    have hxf : x ≠ f := hfst x (List.mem_cons_self x xs)
    have hfx : ¬ (f = x) := fun hh => hxf hh.symm
    have h64 : ¬ ((64:Nat) ≤ c + 1) := by
      simp only [List.length_cons] at hlen
      omega
    rw [List.foldl_cons]
    have hstep : HealthTests.step
        { apt := { window_size := 64, cutoff_value := 5, cur_repetitions := 0,
                   cur_samples := c, status_byte := 0, signature := 2,
                   is_initialized := true, first_sample := f, cycle_failures := 0 },
          rct := { max_repetitions := 5, cur_repetitions := 1, last_sample := prev,
                   status_byte := 0, signature := 1, is_initialized := true,
                   failure_count := 0 },
          num_failures_threshold := thr, max_rct_failures_per_block := mr,
          max_apt_failures_per_block := ma, tests_enabled := true } x
        = { apt := { window_size := 64, cutoff_value := 5, cur_repetitions := 0,
                     cur_samples := c + 1, status_byte := 0, signature := 2,
                     is_initialized := true, first_sample := f, cycle_failures := 0 },
            rct := { max_repetitions := 5, cur_repetitions := 1, last_sample := x,
                     status_byte := 0, signature := 1, is_initialized := true,
                     failure_count := 0 },
            num_failures_threshold := thr, max_rct_failures_per_block := mr,
            max_apt_failures_per_block := ma, tests_enabled := true } := by
      simp [HealthTests.step, HealthTests.rct_phase, HealthTests.apt_phase, hpx, hfx, h64]
    rw [hstep, ih x f (c + 1) thr mr ma hchain'
      (fun y hy => hfst y (List.mem_cons_of_mem x hy))
      (by simp only [List.length_cons] at hlen ⊢; omega)]
    have hlast : (x :: xs).getLast (List.cons_ne_nil x xs)
        = (prev :: x :: xs).getLast (List.cons_ne_nil prev (x :: xs)) :=
      (List.getLast_cons (List.cons_ne_nil x xs)).symm
    rw [hlast]
    have hsamp : c + 1 + xs.length = c + (x :: xs).length := by
      simp only [List.length_cons]
      omega
    rw [hsamp]

/-- When the RCT status byte is latched, it is what `get_health_status`
reports. -/
theorem get_health_status_rct (t : HealthTests) (h : t.rct.status_byte ≠ 0) :
    t.get_health_status = t.rct.status_byte := by
  simp [HealthTests.get_health_status, h]

set_option maxRecDepth 40000 in
/-- The RCT status byte is already latched after the first 25 zero bytes. -/
theorem rct_latched_after_25_zeros :
    (HealthTests.default_state.restart.test (List.replicate 25 0)).rct.status_byte = 1 := by
  decide

/-- Running bytes through `HealthTests.test` from the restarted default state
is the plain fold of `step` (the statistical tests are enabled). -/
theorem test_default_restart_eq_foldl (l : List Nat) :
    HealthTests.default_state.restart.test l
      = List.foldl HealthTests.step HealthTests.default_state.restart l := rfl

/-- C5: from `HealthTests::restart()` with the default failure threshold,
(1) a block of zero bytes latches the RCT status before the 256 bytes are
consumed — already after 25 bytes — and (2) the full 256-byte zero block
reports health status 1 (RCT); while (3) feeding 65 bytes in which byte 0
equals byte 64 and all other bytes are pairwise distinct does not latch
anything: the health status stays 0. -/
theorem health_tests_sensitivity (b0 : Nat) (l : List Nat)
    (hlen : l.length = 63) (hnd : (b0 :: l).Nodup) :
    (HealthTests.default_state.restart.test (List.replicate 25 0)).get_health_status = 1 ∧
    (HealthTests.default_state.restart.test (List.replicate 256 0)).get_health_status = 1 ∧
    (HealthTests.default_state.restart.test (b0 :: (l ++ [b0]))).get_health_status = 0 := by
  have h25 := rct_latched_after_25_zeros
  refine ⟨?_, ?_, ?_⟩
  · rw [get_health_status_rct _ (by rw [h25]; exact one_ne_zero), h25]
  · have hsplit : List.replicate 256 (0:Nat) = List.replicate 25 0 ++ List.replicate 231 0 := by
      rw [← List.replicate_add]
    have h256 : (HealthTests.default_state.restart.test (List.replicate 256 0)).rct.status_byte = 1 := by
      rw [test_default_restart_eq_foldl, hsplit, List.foldl_append,
        ← test_default_restart_eq_foldl (List.replicate 25 0),
        rct_status_latched_foldl _ _ (by rw [h25]; exact one_ne_zero), h25]
    rw [get_health_status_rct _ (by rw [h256]; exact one_ne_zero), h256]
  · have hlne : l ≠ [] := by intro hc; rw [hc] at hlen; simp at hlen
    have hb0 : b0 ∉ l := (List.nodup_cons.mp hnd).1
    have hchain : List.Chain' (fun a b => a ≠ b) (b0 :: l) :=
      List.Pairwise.chain' hnd
    have hfst : ∀ x ∈ l, x ≠ b0 := fun x hx hc => hb0 (hc ▸ hx)
    rw [test_default_restart_eq_foldl, List.foldl_cons]
    have hstep0 : HealthTests.step HealthTests.default_state.restart b0
        = { apt := { window_size := 64, cutoff_value := 5, cur_repetitions := 0,
                     cur_samples := 0, status_byte := 0, signature := 2,
                     is_initialized := true, first_sample := b0, cycle_failures := 0 },
            rct := { max_repetitions := 5, cur_repetitions := 1, last_sample := b0,
                     status_byte := 0, signature := 1, is_initialized := true,
                     failure_count := 0 },
            num_failures_threshold := 5, max_rct_failures_per_block := 0,
            max_apt_failures_per_block := 0, tests_enabled := true } := rfl
    rw [hstep0, List.foldl_append,
      health_steps_mid l b0 b0 0 5 0 0 hchain hfst (by omega)]
    have hL : (b0 :: l).getLast (List.cons_ne_nil b0 l) ≠ b0 := by
      rw [List.getLast_cons hlne]
      exact fun hc => hb0 (hc ▸ List.getLast_mem hlne)
    have hLne : ¬ ((b0 :: l).getLast (List.cons_ne_nil b0 l) = b0) := hL
    rw [List.foldl_cons, List.foldl_nil]
    rw [hlen]
    simp [HealthTests.step, HealthTests.rct_phase, HealthTests.apt_phase,
      HealthTests.get_health_status, hLne]

/-- Witness for `health_tests_sensitivity` with byte 0 = 0 and bytes 1..63
equal to 1..63. -/
theorem health_tests_sensitivity_witness :
    ((List.range 63).map (fun i => i + 1)).length = 63 ∧
    (0 :: (List.range 63).map (fun i => i + 1)).Nodup ∧
    ((HealthTests.default_state.restart.test (List.replicate 25 0)).get_health_status = 1 ∧
     (HealthTests.default_state.restart.test (List.replicate 256 0)).get_health_status = 1 ∧
     (HealthTests.default_state.restart.test
        (0 :: ((List.range 63).map (fun i => i + 1) ++ [0]))).get_health_status = 0) :=
  ⟨by simp, by decide,
   health_tests_sensitivity 0 ((List.range 63).map (fun i => i + 1)) (by simp) (by decide)⟩

/-- The chunk loop of `get_bytes` issues at most one `execute_command` per
chunk, whatever happens. -/
theorem get_bytes_loop_count (resp : Nat → Nat → Nat) (block : Nat) (td : Bool) :
    ∀ (n i : Nat) (ht : HealthTests),
      (AlphaRngApi.get_bytes_loop resp block td i n ht).2.2 ≤ n := by
  intro n
  induction n with
  | zero => intro i ht; simp [AlphaRngApi.get_bytes_loop]
  | succ n ih =>
    intro i ht
    rw [AlphaRngApi.get_bytes_loop]
    dsimp only
    split_ifs <;> (try dsimp only) <;>
      first
        | omega
        | exact Nat.succ_le_succ (ih (i + 1) _)

/-- C4 (amended): (i) in the MAC/cipher path, `get_bytes` never re-issues a
chunk command — it makes at most one `execute_command` per chunk (full chunks
plus the trailing partial one), so a health-test latch fails the read without
any retry at this level; (ii) in the no-cipher fast path,
`get_unpacked_bytes_with_retry` retries the whole bulk read whenever an
attempt fails — for any cause, a host-side health-test latch included — and
surfaces the failure only after exactly 3 attempts. -/
theorem bulk_health_fail_retry
    (resp : Nat → Nat → Nat) (out_length block : Nat) (test_data : Bool) (ht : HealthTests)
    (payloads : Nat → Nat → Nat → Nat) (out2 block2 : Nat) (td2 : Bool) (ht2 : HealthTests)
    (hout2 : 1 ≤ out2)
    (h1 : (AlphaRngApi.get_unpacked_bytes (payloads 0) out2 block2 td2 ht2).1 = false)
    (h2 : (AlphaRngApi.get_unpacked_bytes (payloads 1) out2 block2 td2
            (AlphaRngApi.get_unpacked_bytes (payloads 0) out2 block2 td2 ht2).2).1 = false)
    (h3 : (AlphaRngApi.get_unpacked_bytes (payloads 2) out2 block2 td2
            (AlphaRngApi.get_unpacked_bytes (payloads 1) out2 block2 td2
              (AlphaRngApi.get_unpacked_bytes (payloads 0) out2 block2 td2 ht2).2).2).1
          = false) :
    (AlphaRngApi.get_bytes resp out_length block test_data ht).2.2
      ≤ out_length / block + (if 0 < out_length % block then 1 else 0) ∧
    (AlphaRngApi.get_unpacked_bytes_with_retry payloads out2 block2 td2 ht2).1 = false ∧
    (AlphaRngApi.get_unpacked_bytes_with_retry payloads out2 block2 td2 ht2).2.2 = 3 := by
  have hloop := get_bytes_loop_count resp block test_data (out_length / block) 0 ht
  constructor
  · unfold AlphaRngApi.get_bytes
    dsimp only
    split_ifs <;> (try dsimp only) <;> omega
  · have hguard : ¬ (out2 < 1) := by omega
    unfold AlphaRngApi.get_unpacked_bytes_with_retry
    rw [if_neg hguard]
    rw [AlphaRngApi.get_unpacked_retry_loop]
    try dsimp only
    rw [h1]
    try dsimp only
    rw [AlphaRngApi.get_unpacked_retry_loop]
    try dsimp only
    rw [h2]
    try dsimp only
    rw [AlphaRngApi.get_unpacked_retry_loop]
    try dsimp only
    rw [h3]
    try dsimp only
    rw [AlphaRngApi.get_unpacked_retry_loop]
    exact ⟨rfl, rfl⟩

set_option maxRecDepth 100000 in
/-- C4 counterexample: in the no-cipher fast path, with a device that returns
all-zero payload blocks and a healthy status byte, a 25-byte bulk read fails
because the host-side RCT test latches — yet `get_unpacked_bytes_with_retry`
does not surface that failure immediately: it runs 3 attempts, not 1. -/
theorem bulk_health_fail_cex :
    ((AlphaRngApi.get_unpacked_bytes (fun _ _ => 0) 25 16000 true
        HealthTests.default_state).1 = false ∧
     (AlphaRngApi.get_unpacked_bytes (fun _ _ => 0) 25 16000 true
        HealthTests.default_state).2.is_error = true) ∧
    ¬ ((AlphaRngApi.get_unpacked_bytes_with_retry (fun _ _ _ => 0) 25 16000 true
        HealthTests.default_state).2.2 = 1) := by
  decide

set_option maxRecDepth 100000 in
/-- Witness for `bulk_health_fail_retry` with all-zero device payloads on both
paths and a 25-byte read. -/
theorem bulk_health_fail_retry_witness :
    (1 ≤ 25 ∧
     (AlphaRngApi.get_unpacked_bytes ((fun _ => fun _ _ => 0) 0) 25 16000 true
        HealthTests.default_state).1 = false ∧
     (AlphaRngApi.get_unpacked_bytes ((fun _ => fun _ _ => 0) 1) 25 16000 true
        (AlphaRngApi.get_unpacked_bytes ((fun _ => fun _ _ => 0) 0) 25 16000 true
          HealthTests.default_state).2).1 = false ∧
     (AlphaRngApi.get_unpacked_bytes ((fun _ => fun _ _ => 0) 2) 25 16000 true
        (AlphaRngApi.get_unpacked_bytes ((fun _ => fun _ _ => 0) 1) 25 16000 true
          (AlphaRngApi.get_unpacked_bytes ((fun _ => fun _ _ => 0) 0) 25 16000 true
            HealthTests.default_state).2).2).1 = false) ∧
    ((AlphaRngApi.get_bytes (fun _ _ => 0) 25 16000 true HealthTests.default_state).2.2
        ≤ 25 / 16000 + (if 0 < 25 % 16000 then 1 else 0) ∧
     (AlphaRngApi.get_unpacked_bytes_with_retry (fun _ => fun _ _ => 0) 25 16000 true
        HealthTests.default_state).1 = false ∧
     (AlphaRngApi.get_unpacked_bytes_with_retry (fun _ => fun _ _ => 0) 25 16000 true
        HealthTests.default_state).2.2 = 3) :=
  ⟨⟨by decide, by decide, by decide, by decide⟩,
   bulk_health_fail_retry (fun _ _ => 0) 25 16000 true HealthTests.default_state
     (fun _ => fun _ _ => 0) 25 16000 true HealthTests.default_state
     (by decide) (by decide) (by decide) (by decide)⟩

/-- C9: after a failed construction (invalid limits or allocation failure)
`generate_sequence` always returns `false`; and on a successfully constructed
object, a request with `size == 0` or `size` greater than the range size
returns `false` without issuing a single `get_entropy` request (and hence
without touching `dest`). -/
theorem generate_sequence_guards (min_limit max_limit : Int) (alloc_ok : Bool)
    (ent : Nat → Nat → Nat) (size : Nat) :
    (RandomRangeSequence.ctor_error min_limit max_limit alloc_ok = true →
      RandomRangeSequence.generate_sequence min_limit max_limit alloc_ok ent size
        = (none, 0)) ∧
    (RandomRangeSequence.ctor_error min_limit max_limit alloc_ok = false →
      (size = 0 ∨ RandomRangeSequence.actual_range min_limit max_limit < size) →
      RandomRangeSequence.generate_sequence min_limit max_limit alloc_ok ent size
        = (none, 0)) := by
  constructor
  · intro h
    simp [RandomRangeSequence.generate_sequence, h]
  · intro h hsz
    simp only [RandomRangeSequence.generate_sequence, h, Bool.false_eq_true, if_false]
    rw [if_pos]
    rcases hsz with h0 | hlt
    · exact Or.inr h0
    · exact Or.inl hlt

/-- Witness for `generate_sequence_guards`: a valid `[1..49]` object asked for
zero values returns `false` with no entropy request. -/
theorem generate_sequence_guards_witness :
    RandomRangeSequence.ctor_error 1 49 true = false ∧
    RandomRangeSequence.generate_sequence 1 49 true (fun _ _ => 0) 0 = (none, 0) :=
  ⟨by decide,
   (generate_sequence_guards 1 49 true (fun _ _ => 0) 0).2 (by decide) (Or.inl rfl)⟩

/-- Reading the element just past a prefix. -/
theorem getD_append_length {α : Type} (d : α) :
    ∀ (s : List α) (x : α) (t : List α), (s ++ x :: t).getD s.length d = x := by
  intro s
  induction s with
  | nil => intro x t; rfl
  | cons a as ih =>
    intro x t
    simp only [List.cons_append, List.length_cons, List.getD_cons_succ]
    exact ih x t

/-- Reading at an index known to equal the prefix length. -/
theorem getD_append_of_length {α : Type} (d : α) (s : List α) (x : α) (t : List α)
    (n : Nat) (h : s.length = n) : (s ++ x :: t).getD n d = x := by
  subst h
  exact getD_append_length d s x t

/-- Overwriting the element just past a prefix. -/
theorem set_append_length {α : Type} :
    ∀ (s : List α) (x v : α) (t : List α), (s ++ x :: t).set s.length v = s ++ v :: t := by
  intro s
  induction s with
  | nil => intro x v t; rfl
  | cons a as ih => intro x v t; simpa using ih x v t

/-- Overwriting at an index known to equal the prefix length. -/
theorem set_append_of_length {α : Type} (s : List α) (x v : α) (t : List α)
    (n : Nat) (h : s.length = n) : (s ++ x :: t).set n v = s ++ v :: t := by
  subst h
  exact set_append_length s x v t

/-- Running `iterate` over the consecutive entropy words `k, k+1, …` on a
buffer whose first `k` slots are already consumed: every remaining slot is
visited in turn; unmarked slots are emitted in order and marked, slots already
holding the `-1` sentinel are skipped.  The pass ends with every slot marked
and exactly the non-sentinel values of the original buffer emitted. -/
theorem iterate_seq (A : List Int) (hA : A.length ≤ 2 ^ 32) :
    ∀ (n k : Nat), k + n = A.length →
      RandomRangeSequence.iterate A.length (List.range' k n)
        { active := List.replicate k (-1) ++ A.drop k,
          dest := (A.take k).filter (fun v => v != -1) }
      = { active := List.replicate A.length (-1),
          dest := A.filter (fun v => v != -1) } := by
  intro n
  induction n with
  | zero =>
    intro k hk
    have hkA : k = A.length := by omega
    subst hkA
    simp [RandomRangeSequence.iterate, List.range']
  | succ n ih =>
    intro k hk
    have hkN : k < A.length := by omega
    have hsplit : A.drop k = A[k] :: A.drop (k + 1) := List.drop_eq_getElem_cons hkN
    have hlen_active : (List.replicate k (-1 : Int) ++ A.drop k).length = A.length := by
      simp [List.length_drop]
      omega
    have hdest_lt : ((A.take k).filter (fun v => v != -1)).length < A.length := by
      calc ((A.take k).filter (fun v => v != -1)).length
          ≤ (A.take k).length := List.length_filter_le _ _
        _ = k := by rw [List.length_take]; omega
        _ < A.length := hkN
    have hidx : (k % 2 ^ 32) % (List.replicate k (-1 : Int) ++ A.drop k).length = k := by
      rw [hlen_active, Nat.mod_eq_of_lt (lt_of_lt_of_le hkN hA), Nat.mod_eq_of_lt hkN]
    have hv : (List.replicate k (-1 : Int) ++ A.drop k).getD
        ((k % 2 ^ 32) % (List.replicate k (-1 : Int) ++ A.drop k).length) 0 = A[k] := by
      rw [hidx, hsplit]
      exact getD_append_of_length 0 _ _ _ k (List.length_replicate k _)
    have htake : A.take (k + 1) = A.take k ++ [A[k]] := by
      rw [List.take_succ]
      congr 1
      simp [List.getElem?_eq_getElem hkN]
    rw [List.range'_succ]
    rw [RandomRangeSequence.iterate]
    simp only [hv, if_pos hdest_lt]
    by_cases hAk : A[k] = (-1 : Int)
    · rw [if_neg (by simp [hAk])]
      have hactive : List.replicate k (-1 : Int) ++ A.drop k
          = List.replicate (k + 1) (-1) ++ A.drop (k + 1) := by
        rw [hsplit, hAk, List.replicate_succ' k (-1 : Int), List.append_assoc]
        rfl
      have hdest : (A.take k).filter (fun v => v != -1)
          = (A.take (k + 1)).filter (fun v => v != -1) := by
        rw [htake, List.filter_append, hAk]
        simp
      rw [hactive, hdest]
      exact ih (k + 1) (by omega)
    · rw [if_pos (by simp [hAk])]
      have hactive : (List.replicate k (-1 : Int) ++ A.drop k).set
            ((k % 2 ^ 32) % (List.replicate k (-1 : Int) ++ A.drop k).length) (-1)
          = List.replicate (k + 1) (-1) ++ A.drop (k + 1) := by
        rw [hidx, hsplit, set_append_of_length _ _ _ _ k (List.length_replicate k _),
          List.replicate_succ' k (-1 : Int), List.append_assoc]
        rfl
      have hdest : (A.take k).filter (fun v => v != -1) ++ [A[k]]
          = (A.take (k + 1)).filter (fun v => v != -1) := by
        rw [htake, List.filter_append]
        simp [hAk]
      rw [hactive, hdest]
      exact ih (k + 1) (by omega)

/-- The initial relative-value buffer at the maximal admissible range
`2^32 - 1`: the stored `int32_t` values are `wrap32(1), …, wrap32(2^32 - 1)`,
and the last one collides with the `-1` sentinel. -/
theorem init_active_corner_split :
    RandomRangeSequence.init_active 4294967295
      = (List.range 4294967294).map (fun i => wrap32 (i + 1)) ++ [(-1 : Int)] := by
  rw [RandomRangeSequence.init_active,
    show (4294967295 : Nat) = 4294967294 + 1 by norm_num,
    List.range_succ, List.map_append]
  congr 1

/-- No stored value other than the last one equals the sentinel. -/
theorem init_active_corner_no_sentinel :
    ∀ j, j < 4294967294 → wrap32 (j + 1) ≠ (-1 : Int) := by
  intro j hj
  unfold wrap32
  have hmod : (j + 1) % 2 ^ 32 = j + 1 := Nat.mod_eq_of_lt (by omega)
  rw [hmod]
  by_cases hlt : j + 1 < 2 ^ 31
  · rw [if_pos hlt]
    intro hc
    omega
  · rw [if_neg hlt]
    intro hc
    have : (j : Int) + 1 - 2 ^ 32 = -1 := by push_cast at hc ⊢; omega
    omega

/-- Generalized form of `iterate_seq`: the buffer length given as an explicit
value `N`, so the lemma applies directly to the literal-sized corner case. -/
theorem iterate_seq_lit (A : List Int) (N : Nat) (hN : A.length = N) (hA : N ≤ 2 ^ 32) :
    RandomRangeSequence.iterate N (List.range' 0 N) { active := A, dest := [] }
      = { active := List.replicate N (-1), dest := A.filter (fun v => v != -1) } := by
  subst hN
  have h := iterate_seq A hA A.length 0 (by omega)
  simpa only [List.replicate_zero, List.nil_append, List.drop_zero, List.take_zero,
    List.filter_nil] using h

/-- Length of the initial relative-value buffer at range `2^32 - 1`. -/
theorem init_active_corner_length :
    (RandomRangeSequence.init_active 4294967295).length = 4294967295 := by
  rw [RandomRangeSequence.init_active, List.length_map, List.length_range]

/-- The identity entropy source supplies the words `0, 1, …, size - 1`. -/
theorem entropy_words_corner :
    (List.range 4294967295).map (fun i => i) = List.range' 0 4294967295 := by
  rw [List.map_id']
  exact List.range_eq_range' 4294967295

/-- A fully marked buffer defragments to nothing. -/
theorem replicate_sentinel_filter :
    (List.replicate 4294967295 (-1 : Int)).filter (fun v => v != -1) = [] := by
  rw [List.filter_eq_nil_iff]
  intro a ha
  rw [List.mem_replicate] at ha
  simp [ha.2]

/-- Filtering the sentinel out of the initial buffer at range `2^32 - 1` keeps
exactly the first `2^32 - 2` stored values: the last slot, whose stored value
wrapped to `-1`, is dropped. -/
theorem init_active_corner_filter :
    (RandomRangeSequence.init_active 4294967295).filter (fun v => v != -1)
      = (List.range 4294967294).map (fun i => wrap32 (i + 1)) := by
  rw [init_active_corner_split, List.filter_append]
  have h1 : ((List.range 4294967294).map (fun i => wrap32 (i + 1))).filter
        (fun v => v != -1)
      = (List.range 4294967294).map (fun i => wrap32 (i + 1)) := by
    rw [List.filter_eq_self]
    intro a ha
    rw [List.mem_map] at ha
    obtain ⟨j, hj, rfl⟩ := ha
    rw [List.mem_range] at hj
    simpa using init_active_corner_no_sentinel j hj
  rw [h1]
  simp

/-- Round 1 of the `while` loop at the corner case: the buffer is empty after
one pass, so the loop exits with the `2^32 - 2` values emitted so far. -/
theorem gen_loop_corner_round1 :
    RandomRangeSequence.gen_loop (fun _ i => i) 4294967295 1 (4294967294 + 1)
      { active := ([] : List Int),
        dest := (List.range 4294967294).map (fun i => wrap32 (i + 1)) }
      = (some ((List.range 4294967294).map (fun i => wrap32 (i + 1))), 0) := by
  rw [RandomRangeSequence.gen_loop]
  rw [if_neg (by simp)]

/-- Round 0 of the `while` loop at the corner case: the identity entropy words
visit every slot once, emitting all stored values except the sentinel-aliased
last one, and `defragment` then empties the buffer. -/
theorem gen_loop_corner_round0 :
    RandomRangeSequence.gen_loop (fun _ i => i) 4294967295 0 (4294967295 + 1)
      { active := RandomRangeSequence.init_active 4294967295, dest := [] }
      = (some ((List.range 4294967294).map (fun i => wrap32 (i + 1))), 1) := by
  have hiter := iterate_seq_lit (RandomRangeSequence.init_active 4294967295) 4294967295
    init_active_corner_length (by norm_num)
  rw [RandomRangeSequence.gen_loop]
  dsimp only
  rw [if_pos ⟨by rw [init_active_corner_length]; norm_num, by norm_num⟩]
  rw [entropy_words_corner, hiter, RandomRangeSequence.defragment]
  dsimp only
  rw [replicate_sentinel_filter, init_active_corner_filter]
  rw [show RandomRangeSequence.gen_loop (fun _ i => i) 4294967295 (0 + 1) 4294967295
      { active := ([] : List Int),
        dest := (List.range 4294967294).map (fun i => wrap32 (i + 1)) }
      = (some ((List.range 4294967294).map (fun i => wrap32 (i + 1))), 0)
    from gen_loop_corner_round1]

/-- The corner range passes the constructor's limit checks:
`c_actual_range = 2^32 - 1 = c_max_sequences`. -/
theorem actual_range_corner :
    RandomRangeSequence.actual_range (-2147483647) 2147483647 = 4294967295 := by
  decide

/-- Evaluation rule for `generate_sequence` on the successful path: with the
constructor checks passed and the size guard false, the result is the final
transform applied to what the `while` loop emitted. -/
theorem generate_sequence_eval (min_limit max_limit : Int) (alloc_ok : Bool)
    (ent : Nat → Nat → Nat) (size range : Nat) (dest0 : List Int) (n : Nat)
    (hctor : RandomRangeSequence.ctor_error min_limit max_limit alloc_ok = false)
    (hrange : RandomRangeSequence.actual_range min_limit max_limit = range)
    (hguard : ¬ (range < size ∨ size = 0))
    (hloop : RandomRangeSequence.gen_loop ent size 0 (size + 1)
      { active := RandomRangeSequence.init_active range, dest := [] } = (some dest0, n)) :
    RandomRangeSequence.generate_sequence min_limit max_limit alloc_ok ent size
      = (some (dest0.map (fun v => wrap32i (v - 1 + min_limit))), n) := by
  rw [RandomRangeSequence.generate_sequence, hctor]
  dsimp only
  rw [hrange, if_neg hguard, hloop]
  rfl

/-- C1: at the maximal admissible range `rangeSize = 2^32 - 1`
(`min = -2147483647`, `max = 2147483647`) with `size = rangeSize`, the claim
fails: `generate_sequence` returns `true` after emitting only `size - 1`
values.  Slot `2^32 - 2` of the relative-value buffer stores
`(int32_t)(2^32 - 1) = -1`, which aliases the extracted-slot marker, so
`iterate` never emits it, `defragment` drops it, the `while` loop exits with
`m_dest_idx = size - 1`, and the final transform (and the `true` return) run
regardless — leaving `dest[size - 1]` holding uninitialized memory in the C
code.  The embedding returns the list of values actually emitted; its length
is `4294967294 = size - 1`, not `size`. -/
theorem generate_sequence_sentinel_bug :
    ∃ out,
      (RandomRangeSequence.generate_sequence (-2147483647) 2147483647 true
          (fun _ i => i) 4294967295).1 = some out ∧
        out.length = 4294967294 := by
  have heval := generate_sequence_eval (-2147483647) 2147483647 true (fun _ i => i)
    4294967295 4294967295 ((List.range 4294967294).map (fun i => wrap32 (i + 1))) 1
    (by decide) actual_range_corner (by norm_num) gen_loop_corner_round0
  refine ⟨((List.range 4294967294).map (fun i => wrap32 (i + 1))).map
      (fun v => wrap32i (v - 1 + (-2147483647))), ?_, ?_⟩
  · rw [heval]
  · rw [List.length_map, List.length_map, List.length_range]
